import Mathlib

/-!
Shallow embedding of the pollution-checker repository.

Strings from the JavaScript sources are modelled as `List Char`;
lowercased strings (produced by `String.prototype.toLowerCase`) are
modelled as `List Nat` of code points, using the simple one-to-one
Unicode lowercase mapping over ASCII, Latin-1 and Latin Extended-A
(the only ranges the code's data and regexes touch).  Machine numbers
are modelled as `ℚ` together with explicit NaN/Infinity markers.
-/

set_option maxRecDepth 100000

/-- JavaScript number: NaN, signed infinity, or a finite value
(modelled exactly as a rational; the spec's properties only involve
ranges that decimal literals represent exactly). -/
inductive JsNum where
  | nan : JsNum
  | inf : Bool → JsNum
  | fin : ℚ → JsNum
deriving DecidableEq, Repr

/-- Loosely-typed JavaScript value, as the raw records carry them. -/
inductive JSVal where
  | vNull : JSVal
  | vUndefined : JSVal
  | vNum : JsNum → JSVal
  | vStr : List Char → JSVal
deriving DecidableEq, Repr

/-- JavaScript truthiness test (`!x`): null, undefined, NaN, 0 and the
empty string are falsy. -/
def jsFalsy : JSVal → Bool
  | .vNull => true
  | .vUndefined => true
  | .vNum .nan => true
  | .vNum (.inf _) => false
  | .vNum (.fin q) => decide (q = 0)
  | .vStr s => s.isEmpty

/-- Simple Unicode lowercase mapping on code points, restricted to
ASCII, Latin-1 Supplement and Latin Extended-A; identity elsewhere.
U+0130 is left unchanged (its JS lowercase is a two-character
sequence, so it is not a one-to-one case variant). -/
def lowCode (n : Nat) : Nat :=
  if n < 384 then
    (if 0x41 ≤ n ∧ n ≤ 0x5A then n + 0x20
     else if 0xC0 ≤ n ∧ n ≤ 0xDE ∧ n ≠ 0xD7 then n + 0x20
     else if 0x100 ≤ n ∧ n ≤ 0x137 ∧ n % 2 = 0 ∧ n ≠ 0x130 then n + 1
     else if 0x139 ≤ n ∧ n ≤ 0x148 ∧ n % 2 = 1 then n + 1
     else if 0x14A ≤ n ∧ n ≤ 0x177 ∧ n % 2 = 0 then n + 1
     else if n = 0x178 then 0xFF
     else if n = 0x179 ∨ n = 0x17B ∨ n = 0x17D then n + 1
     else n)
  else n

/-- Whitespace class of JavaScript's `\s` (and `trim`). -/
def wsCode (n : Nat) : Bool :=
  decide (n = 0x9 ∨ n = 0xA ∨ n = 0xB ∨ n = 0xC ∨ n = 0xD ∨ n = 0x20 ∨
    n = 0xA0 ∨ n = 0x1680 ∨ (0x2000 ≤ n ∧ n ≤ 0x200A) ∨ n = 0x2028 ∨
    n = 0x2029 ∨ n = 0x202F ∨ n = 0x205F ∨ n = 0x3000 ∨ n = 0xFEFF)

/-- JavaScript `\w` class: ASCII letters, digits, underscore. -/
def wordCode (n : Nat) : Bool :=
  decide ((0x30 ≤ n ∧ n ≤ 0x39) ∨ (0x41 ≤ n ∧ n ≤ 0x5A) ∨
    (0x61 ≤ n ∧ n ≤ 0x7A) ∨ n = 0x5F)

/-- ASCII digit class `\d`. -/
def digitCode (n : Nat) : Bool := decide (0x30 ≤ n ∧ n ≤ 0x39)

/-- ASCII letter class `[a-zA-Z]`. -/
def asciiLetterCode (n : Nat) : Bool :=
  decide ((0x41 ≤ n ∧ n ≤ 0x5A) ∨ (0x61 ≤ n ∧ n ≤ 0x7A))

/-- Character class of the classifier's allowed-charset regex
`[a-zA-ZÀ-ÿÀ-ſ\s\-'\.()]`. -/
def allowedCode (n : Nat) : Bool :=
  asciiLetterCode n || decide (0xC0 ≤ n ∧ n ≤ 0x17F) || wsCode n ||
    decide (n = 0x2D ∨ n = 0x27 ∨ n = 0x2E ∨ n = 0x28 ∨ n = 0x29)

/-- Characters kept by `cleanCityName`'s removal regex
`[^\w\s\-'.,()]`. -/
def keepCode (n : Nat) : Bool :=
  wordCode n || wsCode n ||
    decide (n = 0x2D ∨ n = 0x27 ∨ n = 0x2E ∨ n = 0x2C ∨ n = 0x28 ∨ n = 0x29)

/-- Character class of `[\d\s\-\.]` (pure number/punctuation labels). -/
def numPunctCode (n : Nat) : Bool :=
  digitCode n || wsCode n || decide (n = 0x2D ∨ n = 0x2E)

/-- JavaScript line terminators, which `.` in a regex does not match. -/
def lineTermCode (n : Nat) : Bool :=
  decide (n = 0xA ∨ n = 0xD ∨ n = 0x2028 ∨ n = 0x2029)

theorem lowCode_high (n : Nat) (h : ¬ n < 384) : lowCode n = n := by
  simp [lowCode, h]

theorem lowCode_fiber (P : Nat → Bool)
    (h : ∀ i : Fin 384, P (lowCode i.val) = P i.val) :
    ∀ n, P (lowCode n) = P n := by
  intro n
  by_cases hn : n < 384
  · exact h ⟨n, hn⟩
  · rw [lowCode_high n hn]

theorem ws_lowCode : ∀ n, wsCode (lowCode n) = wsCode n :=
  lowCode_fiber _ (by decide)

theorem word_lowCode : ∀ n, wordCode (lowCode n) = wordCode n :=
  lowCode_fiber _ (by decide)

theorem allowed_lowCode : ∀ n, allowedCode (lowCode n) = allowedCode n :=
  lowCode_fiber _ (by decide)

theorem keep_lowCode : ∀ n, keepCode (lowCode n) = keepCode n :=
  lowCode_fiber _ (by decide)

theorem asciiLetter_lowCode :
    ∀ n, asciiLetterCode (lowCode n) = asciiLetterCode n :=
  lowCode_fiber _ (by decide)

/-- `String.prototype.trim`, dropping JS whitespace at both ends. -/
def jsTrim (s : List Char) : List Char :=
  ((s.dropWhile fun c => wsCode c.toNat).reverse.dropWhile
    fun c => wsCode c.toNat).reverse

/-- `String.prototype.toLowerCase` as a code-point list (simple
one-to-one mapping, see `lowCode`). -/
def toLow (s : List Char) : List Nat := s.map fun c => lowCode c.toNat

/-- Code points of a Lean string literal (for the source's string
constants and patterns). -/
def lit (s : String) : List Nat := s.data.map Char.toNat

/-- Case-insensitive literal match of `pat` against a prefix of the
subject (both as code-point lists), as a regex with the `i` flag
compares characters. -/
def ciPref : List Nat → List Nat → Bool
  | [], _ => true
  | _ :: _, [] => false
  | p :: ps, s :: ss => (lowCode p == lowCode s) && ciPref ps ss

/-- Case-insensitive occurrence of `pat` anywhere in `subj`
(regex `/pat/i.test(subj)` for a literal pattern). -/
def ciIncludes (subj pat : List Nat) : Bool :=
  (List.range (subj.length + 1)).any fun i => ciPref pat (subj.drop i)

/-- Case-sensitive literal prefix match (used for
`String.prototype.includes`). -/
def litPref : List Nat → List Nat → Bool
  | [], _ => true
  | _ :: _, [] => false
  | p :: ps, s :: ss => (p == s) && litPref ps ss

/-- `subj.includes(pat)` — case-sensitive substring test. -/
def jsIncludes (subj pat : List Nat) : Bool :=
  (List.range (subj.length + 1)).any fun i => litPref pat (subj.drop i)

/-- Is the character at index `k` a `\w` word character (`false` out
of range), for `\b` boundary computation. -/
def wordAt (subj : List Nat) (k : Nat) : Bool :=
  decide (k < subj.length) && wordCode (subj.getD k 0)

/-- Word-character status just before index `k` (`false` at the start
of the string). -/
def prevWordAt (subj : List Nat) (k : Nat) : Bool :=
  match k with
  | 0 => false
  | k + 1 => wordAt subj k

/-- A `\b` word boundary holds at index `k`. -/
def boundaryAt (subj : List Nat) (k : Nat) : Bool :=
  prevWordAt subj k != wordAt subj k

/-- Test of `new RegExp("\\b" + term + "\\b", "i")` against `subj`
for a literal `term`. -/
def testWordTerm (term subj : List Nat) : Bool :=
  (List.range (subj.length + 1)).any fun i =>
    ciPref term (subj.drop i) && boundaryAt subj i &&
      boundaryAt subj (i + term.length)

/-- The `NON_CITY_INDICATORS` list from `responseFormatter.ts`. -/
def nonCityIndicators : List (List Nat) :=
  [lit "zone", lit "area", lit "power plant", lit "unknown",
   lit "plant", lit "factory", lit "industrial",
   lit "test", lit "sample", lit "example", lit "invalid", lit "null",
   lit "undefined",
   lit "monitoring", lit "east", lit "west", lit "north", lit "south",
   lit "district", lit "station", lit "azul"]

/-- The `INVALID_CITY_NAMES` list from `responseFormatter.ts`,
verbatim (letter case included). -/
def invalidCityNames : List (List Nat) :=
  [lit "powerplant-east", lit "power plant east", lit "powerplant east",
   lit "monitoring station", lit "monitoring station a", lit "monitoring station ä",
   lit "unknown area", lit "unknown âreã", lit "unknown area 22",
   lit "powereast", lit "power-east", lit "power east",
   lit "station a", lit "station ä", lit "station (area)",
   lit "area 22", lit "âreã 22", lit "area unknown",
   lit "zone x", lit "zone unknown", lit "zone area",
   lit "plant east", lit "plant station", lit "plant monitoring",
   lit "east station", lit "east area", lit "east zone",
   lit "monitoring area", lit "monitoring zone", lit "monitoring plant",
   lit "powerplânt-eâst", lit "monitôrìng statiòn ä", lit "kâTöwìce",
   lit "lúBLïn", lit "zarãgoza", lit "barce[lo]+na",
   lit "berlin (district)", lit "munich (station)", lit "frankfurt (district)"]

/-- Does any `NON_CITY_INDICATORS` term occur in the (lowercased)
name as a `\b`-delimited word. -/
def hasIndicator (ln : List Nat) : Bool :=
  nonCityIndicators.any fun t => testWordTerm t ln

/-- Does the (lowercased) name contain any `INVALID_CITY_NAMES` entry
via case-sensitive `includes`. -/
def hasInvalidName (ln : List Nat) : Bool :=
  invalidCityNames.any fun t => jsIncludes ln t

/-- `/a.*b/i` pattern: `a` then `b` further right, with no line
terminator in between (regex `.` does not cross line terminators). -/
def ciPairPattern (a b subj : List Nat) : Bool :=
  (List.range (subj.length + 1)).any fun i =>
    ciPref a (subj.drop i) &&
      (List.range (subj.length + 1)).any fun j =>
        decide (i + a.length ≤ j) && ciPref b (subj.drop j) &&
          ((subj.drop (i + a.length)).take (j - (i + a.length))).all
            fun n => !lineTermCode n

/-- The `CORRUPTION_PATTERNS` tests from `responseFormatter.ts`. -/
def hasCorruptionPattern (ln : List Nat) : Bool :=
  ciPairPattern (lit "power") (lit "east") ln ||
  ciPairPattern (lit "east") (lit "power") ln ||
  ciPairPattern (lit "monitoring") (lit "station") ln ||
  ciPairPattern (lit "station") (lit "monitoring") ln ||
  ciPairPattern (lit "unknown") (lit "area") ln ||
  ciPairPattern (lit "area") (lit "unknown") ln ||
  ln.any digitCode ||
  ciIncludes ln (lit "âreã") ||
  ciIncludes ln (lit "ôrìng") ||
  ciIncludes ln (lit "(district)") ||
  ciIncludes ln (lit "(station)")

/-- `hasValidCharacters` from `responseFormatter.ts`: the trimmed
string is non-empty and matches `^[a-zA-ZÀ-ÿÀ-ſ\s\-'\.()]+$`. -/
def hasValidCharacters (s : List Char) : Bool :=
  !(jsTrim s).isEmpty && (jsTrim s).all fun c => allowedCode c.toNat

/-- Whitespace-run collapsing of `replace(/\s+/g, " ")`; the Boolean
records whether the previous character was whitespace. -/
def collapseWsAux : Bool → List Char → List Char
  | _, [] => []
  | prevWs, c :: rest =>
    if wsCode c.toNat then
      (if prevWs then collapseWsAux true rest
       else ' ' :: collapseWsAux true rest)
    else c :: collapseWsAux false rest

/-- `cleanCityName` from `responseFormatter.ts`: trim, collapse
whitespace runs, remove characters outside `[\w\s\-'.,()]`, trim. -/
def cleanCityName (s : List Char) : List Char :=
  jsTrim ((collapseWsAux false (jsTrim s)).filter fun c => keepCode c.toNat)

/-- `looksLikeCityName` from `responseFormatter.ts`. -/
def looksLikeCityName (v : JSVal) : Bool :=
  match v with
  | .vStr s =>
    if s.isEmpty then false
    else
      let cleanName : List Nat := toLow (jsTrim s)
      decide (2 ≤ cleanName.length) && decide (cleanName.length ≤ 50) &&
      !hasIndicator cleanName &&
      !hasInvalidName cleanName &&
      !hasCorruptionPattern cleanName &&
      hasValidCharacters s &&
      !(!cleanName.isEmpty && cleanName.all numPunctCode) &&
      cleanName.any asciiLetterCode
  | _ => false

/-- Longest-prefix decimal parse of `parseFloat` on a string's
remainder after sign handling; `nan` if no digits are found. -/
def parseFloatBody (t : List Char) (neg : Bool) : JsNum :=
  if litPref (lit "Infinity") (t.map Char.toNat) then .inf (!neg)
  else
    let intd := t.takeWhile fun c => digitCode c.toNat
    let rest1 := t.dropWhile fun c => digitCode c.toNat
    let fracd : List Char :=
      match rest1 with
      | '.' :: r => r.takeWhile fun c => digitCode c.toNat
      | _ => []
    let rest2 : List Char :=
      match rest1 with
      | '.' :: r => r.dropWhile fun c => digitCode c.toNat
      | _ => rest1
    if intd.isEmpty && fracd.isEmpty then .nan
    else
      let dval : List Char → Nat :=
        fun ds => ds.foldl (fun a c => 10 * a + (c.toNat - 0x30)) 0
      let mant : ℚ := (dval intd : ℚ) + (dval fracd : ℚ) / ((10 : ℚ) ^ fracd.length)
      let expPart : Int :=
        match rest2 with
        | c :: r =>
          if c = 'e' ∨ c = 'E' then
            match r with
            | '-' :: r2 =>
              let ed := r2.takeWhile fun ch => digitCode ch.toNat
              if ed.isEmpty then 0 else -(dval ed : Int)
            | '+' :: r2 =>
              let ed := r2.takeWhile fun ch => digitCode ch.toNat
              if ed.isEmpty then 0 else (dval ed : Int)
            | _ =>
              let ed := r.takeWhile fun ch => digitCode ch.toNat
              if ed.isEmpty then 0 else (dval ed : Int)
          else 0
        | [] => 0
      let q : ℚ := mant * (10 : ℚ) ^ expPart
      .fin (if neg then -q else q)

/-- `parseFloat` on a string: skip leading whitespace, optional sign,
then the longest numeric prefix (or `Infinity`). -/
def parseFloatStr (s : List Char) : JsNum :=
  let t := s.dropWhile fun c => wsCode c.toNat
  match t with
  | '-' :: rest => parseFloatBody rest true
  | '+' :: rest => parseFloatBody rest false
  | _ => parseFloatBody t false

/-- `parseFloat` on a loosely-typed value: numbers pass through
(finite doubles round-trip through their string form), null and
undefined stringify to non-numeric text, strings are parsed. -/
def jsParseFloat : JSVal → JsNum
  | .vNum n => n
  | .vNull => .nan
  | .vUndefined => .nan
  | .vStr s => parseFloatStr s

/-- `isValidPollutionLevel` from `responseFormatter.ts`: null and
undefined rejected, otherwise `parseFloat` must give a non-NaN value
in `[0, 200]` (infinities fail the range test). -/
def isValidPollutionLevel (v : JSVal) : Bool :=
  match v with
  | .vNull => false
  | .vUndefined => false
  | _ =>
    match jsParseFloat v with
    | .fin q => decide (0 ≤ q) && decide (q ≤ 200)
    | _ => false

/-- A raw record as `isValidCity` consumes it: its `name` and
`pollution` fields (the other fields are not read by the classifier). -/
structure PollutionEntry where
  name : JSVal
  pollution : JSVal
deriving DecidableEq, Repr

/-- Is the value exactly `undefined`. -/
def isUndef : JSVal → Bool
  | .vUndefined => true
  | _ => false

/-- `isValidCity` from `responseFormatter.ts` (the early-return chain
written as the equivalent conjunction, in source order).  The
`country` argument is accepted and ignored, as in the source. -/
def isValidCity (entry : PollutionEntry) (country : Option String) : Bool :=
  !jsFalsy entry.name &&
  looksLikeCityName entry.name &&
  !isUndef entry.pollution &&
  isValidPollutionLevel entry.pollution &&
  (match entry.name with
   | .vStr s =>
     let cityName := jsTrim s
     let cleanedCityName := cleanCityName cityName
     let cleanName : List Nat := toLow cleanedCityName
     !cityName.isEmpty &&
     !hasIndicator cleanName &&
     !hasInvalidName cleanName &&
     !hasCorruptionPattern cleanName &&
     (!cleanedCityName.isEmpty &&
       cleanedCityName.all fun c => allowedCode c.toNat) &&
     (cleanedCityName.any fun c => asciiLetterCode c.toNat) &&
     decide (2 ≤ cleanedCityName.length) &&
     decide (cleanedCityName.length ≤ 50)
   | _ => false)

theorem toLow_length {s s' : List Char} (h : toLow s = toLow s') :
    s.length = s'.length := by
  have h2 := congrArg List.length h
  simpa [toLow] using h2

theorem toLow_length_self (s : List Char) : (toLow s).length = s.length := by
  simp [toLow]

theorem caseEq_all (P : Nat → Bool) (hP : ∀ n, P (lowCode n) = P n) :
    ∀ {s s' : List Char}, toLow s = toLow s' →
      (s.all fun c => P c.toNat) = (s'.all fun c => P c.toNat)
  | [], [], _ => rfl
  | [], _ :: _, h => by simp [toLow] at h
  | _ :: _, [], h => by simp [toLow] at h
  | a :: as, b :: bs, h => by
    simp only [toLow, List.map_cons, List.cons.injEq] at h
    have h1 : P a.toNat = P b.toNat := by
      rw [← hP a.toNat, h.1, hP b.toNat]
    simp only [List.all_cons, h1, caseEq_all P hP h.2]

theorem caseEq_any (P : Nat → Bool) (hP : ∀ n, P (lowCode n) = P n) :
    ∀ {s s' : List Char}, toLow s = toLow s' →
      (s.any fun c => P c.toNat) = (s'.any fun c => P c.toNat)
  | [], [], _ => rfl
  | [], _ :: _, h => by simp [toLow] at h
  | _ :: _, [], h => by simp [toLow] at h
  | a :: as, b :: bs, h => by
    simp only [toLow, List.map_cons, List.cons.injEq] at h
    have h1 : P a.toNat = P b.toNat := by
      rw [← hP a.toNat, h.1, hP b.toNat]
    simp only [List.any_cons, h1, caseEq_any P hP h.2]

theorem caseEq_dropWhileWs :
    ∀ {s s' : List Char}, toLow s = toLow s' →
      toLow (s.dropWhile fun c => wsCode c.toNat) =
        toLow (s'.dropWhile fun c => wsCode c.toNat)
  | [], [], _ => rfl
  | [], _ :: _, h => by simp [toLow] at h
  | _ :: _, [], h => by simp [toLow] at h
  | a :: as, b :: bs, h => by
    simp only [toLow, List.map_cons, List.cons.injEq] at h
    have hws : wsCode a.toNat = wsCode b.toNat := by
      rw [← ws_lowCode a.toNat, h.1, ws_lowCode b.toNat]
    by_cases hw : wsCode a.toNat = true
    · have hb : wsCode b.toNat = true := by rw [← hws]; exact hw
      simp only [List.dropWhile, hw, hb]
      exact caseEq_dropWhileWs h.2
    · have hw2 : wsCode a.toNat = false := by simpa using hw
      have hb : wsCode b.toNat = false := by rw [← hws]; exact hw2
      simp only [List.dropWhile, hw2, hb, toLow, List.map_cons,
        List.cons.injEq]
      exact ⟨h.1, h.2⟩

theorem toLow_reverse (s : List Char) : toLow s.reverse = (toLow s).reverse := by
  simp [toLow, List.map_reverse]

theorem caseEq_trim {s s' : List Char} (h : toLow s = toLow s') :
    toLow (jsTrim s) = toLow (jsTrim s') := by
  have h1 := caseEq_dropWhileWs h
  have h2 : toLow (s.dropWhile fun c => wsCode c.toNat).reverse =
      toLow (s'.dropWhile fun c => wsCode c.toNat).reverse := by
    rw [toLow_reverse, toLow_reverse, h1]
  have h3 := caseEq_dropWhileWs h2
  unfold jsTrim
  rw [toLow_reverse, toLow_reverse, h3]

theorem caseEq_filterKeep :
    ∀ {s s' : List Char}, toLow s = toLow s' →
      toLow (s.filter fun c => keepCode c.toNat) =
        toLow (s'.filter fun c => keepCode c.toNat)
  | [], [], _ => rfl
  | [], _ :: _, h => by simp [toLow] at h
  | _ :: _, [], h => by simp [toLow] at h
  | a :: as, b :: bs, h => by
    simp only [toLow, List.map_cons, List.cons.injEq] at h
    have hk : keepCode a.toNat = keepCode b.toNat := by
      rw [← keep_lowCode a.toNat, h.1, keep_lowCode b.toNat]
    by_cases hka : keepCode a.toNat = true
    · have hb : keepCode b.toNat = true := by rw [← hk]; exact hka
      simp only [List.filter, hka, hb, toLow, List.map_cons,
        List.cons.injEq]
      exact ⟨h.1, caseEq_filterKeep h.2⟩
    · have hka2 : keepCode a.toNat = false := by simpa using hka
      have hb : keepCode b.toNat = false := by rw [← hk]; exact hka2
      simp only [List.filter, hka2, hb]
      exact caseEq_filterKeep h.2

theorem caseEq_collapse :
    ∀ (prevWs : Bool) {s s' : List Char}, toLow s = toLow s' →
      toLow (collapseWsAux prevWs s) = toLow (collapseWsAux prevWs s')
  | _, [], [], _ => rfl
  | _, [], _ :: _, h => by simp [toLow] at h
  | _, _ :: _, [], h => by simp [toLow] at h
  | prevWs, a :: as, b :: bs, h => by
    simp only [toLow, List.map_cons, List.cons.injEq] at h
    have hws : wsCode a.toNat = wsCode b.toNat := by
      rw [← ws_lowCode a.toNat, h.1, ws_lowCode b.toNat]
    by_cases hw : wsCode a.toNat = true
    · have hb : wsCode b.toNat = true := by rw [← hws]; exact hw
      cases prevWs
      · simp only [collapseWsAux, hw, hb, if_true, Bool.false_eq_true,
          if_false, toLow, List.map_cons, List.cons.injEq]
        exact ⟨trivial, caseEq_collapse true h.2⟩
      · simp only [collapseWsAux, hw, hb, if_true]
        exact caseEq_collapse true h.2
    · have hw2 : wsCode a.toNat = false := by simpa using hw
      have hb : wsCode b.toNat = false := by rw [← hws]; exact hw2
      simp only [collapseWsAux, hw2, hb, Bool.false_eq_true, if_false,
        toLow, List.map_cons, List.cons.injEq]
      exact ⟨h.1, caseEq_collapse false h.2⟩

theorem caseEq_cleanCityName {s s' : List Char} (h : toLow s = toLow s') :
    toLow (cleanCityName s) = toLow (cleanCityName s') :=
  caseEq_trim (caseEq_filterKeep (caseEq_collapse false (caseEq_trim h)))

theorem caseEq_isEmpty {s s' : List Char} (h : toLow s = toLow s') :
    s.isEmpty = s'.isEmpty := by
  have hl := toLow_length h
  cases s <;> cases s' <;> simp_all

theorem caseEq_hasValidCharacters {s s' : List Char}
    (h : toLow s = toLow s') :
    hasValidCharacters s = hasValidCharacters s' := by
  unfold hasValidCharacters
  rw [caseEq_all allowedCode allowed_lowCode (caseEq_trim h),
    caseEq_isEmpty (caseEq_trim h)]

theorem caseEq_looksLikeCityName {s s' : List Char}
    (h : toLow s = toLow s') :
    looksLikeCityName (.vStr s) = looksLikeCityName (.vStr s') := by
  simp only [looksLikeCityName]
  rw [caseEq_isEmpty h, caseEq_trim h, caseEq_hasValidCharacters h]

/-- C10: the classifier is a deterministic pure function of the record
and is case-insensitive in the record's name: records whose names are
equal after (simple, one-to-one) lowercasing classify identically. -/
theorem classifier_case_insensitive (s s' : List Char) (p : JSVal)
    (country : Option String) (h : toLow s = toLow s') :
    isValidCity ⟨.vStr s, p⟩ country = isValidCity ⟨.vStr s', p⟩ country := by
  have htrim := caseEq_trim h
  have hclean := caseEq_cleanCityName htrim
  have hlen : (cleanCityName (jsTrim s)).length =
      (cleanCityName (jsTrim s')).length := toLow_length hclean
  have hemp : (jsTrim s).isEmpty = (jsTrim s').isEmpty := caseEq_isEmpty htrim
  have hemp2 : (cleanCityName (jsTrim s)).isEmpty =
      (cleanCityName (jsTrim s')).isEmpty := caseEq_isEmpty hclean
  have hall := caseEq_all allowedCode allowed_lowCode hclean
  have hany := caseEq_any asciiLetterCode asciiLetter_lowCode hclean
  simp only [isValidCity, jsFalsy]
  rw [caseEq_isEmpty h, caseEq_looksLikeCityName h, hemp, hclean, hall,
    hany, hlen, hemp2]

/-- Witness for C10 at the spec's own example: BARCELONA versus
barcelona with a valid pollution value. -/
theorem classifier_case_insensitive_witness :
    toLow "BARCELONA".data = toLow "barcelona".data ∧
      isValidCity ⟨.vStr "BARCELONA".data, .vNum (.fin 50)⟩ (some "ES") =
        isValidCity ⟨.vStr "barcelona".data, .vNum (.fin 50)⟩ (some "ES") :=
  ⟨by decide, classifier_case_insensitive "BARCELONA".data "barcelona".data
    (.vNum (.fin 50)) (some "ES") (by decide)⟩

/-- C4: the curated `INVALID_CITY_NAMES` check is NOT case-insensitive
in the list entries: the record named exactly like the curated entry
written with an uppercase letter is accepted by `isValidCity`, because
the code lowercases the record's name but compares with
case-sensitive `includes` against the entry as written.  The first two
conjuncts show the claim's premise holds (the entry is in the curated
list and the trimmed name contains it up to letter case); the third
shows the classifier nevertheless accepts the record. -/
theorem uppercase_invalid_name_entry_accepted :
    lit "kâTöwìce" ∈ invalidCityNames ∧
    ciIncludes ((jsTrim "kâTöwìce".data).map Char.toNat) (lit "kâTöwìce") = true ∧
    isValidCity ⟨.vStr "kâTöwìce".data, .vNum (.fin 50)⟩ (some "PL") = true :=
  ⟨by decide, by decide, by decide⟩

theorem pollutionLevel_spec {v : JSVal} (h : isValidPollutionLevel v = true) :
    ∃ q : ℚ, jsParseFloat v = .fin q ∧ 0 ≤ q ∧ q ≤ 200 := by
  cases v with
  | vNull => simp [isValidPollutionLevel] at h
  | vUndefined => simp [isValidPollutionLevel] at h
  | vNum n =>
    simp only [isValidPollutionLevel] at h
    cases hq : jsParseFloat (.vNum n) with
    | nan => rw [hq] at h; simp at h
    | inf b => rw [hq] at h; simp at h
    | fin q =>
      rw [hq] at h
      simp only [Bool.and_eq_true, decide_eq_true_eq] at h
      exact ⟨q, rfl, h.1, h.2⟩
  | vStr s =>
    simp only [isValidPollutionLevel] at h
    cases hq : jsParseFloat (.vStr s) with
    | nan => rw [hq] at h; simp at h
    | inf b => rw [hq] at h; simp at h
    | fin q =>
      rw [hq] at h
      simp only [Bool.and_eq_true, decide_eq_true_eq] at h
      exact ⟨q, rfl, h.1, h.2⟩

/-- C6: every record accepted by the classifier has a string name
whose trimmed form is 2–50 characters long and drawn from the allowed
charset, and a pollution value that parses to a finite number in
[0, 200]. -/
theorem classified_record_bounds (entry : PollutionEntry)
    (country : Option String) (h : isValidCity entry country = true) :
    ∃ s, entry.name = .vStr s ∧
      2 ≤ (jsTrim s).length ∧ (jsTrim s).length ≤ 50 ∧
      ((jsTrim s).all fun c => allowedCode c.toNat) = true ∧
      ∃ q : ℚ, jsParseFloat entry.pollution = .fin q ∧ 0 ≤ q ∧ q ≤ 200 := by
  obtain ⟨name, pollution⟩ := entry
  simp only [isValidCity, Bool.and_eq_true] at h
  obtain ⟨⟨⟨⟨hfal, hlook⟩, hundef⟩, hpoll⟩, hrest⟩ := h
  cases name with
  | vNull => simp [looksLikeCityName] at hlook
  | vUndefined => simp [looksLikeCityName] at hlook
  | vNum n => simp [looksLikeCityName] at hlook
  | vStr s =>
    simp only [looksLikeCityName] at hlook
    by_cases hse : s.isEmpty = true
    · rw [if_pos hse] at hlook; exact absurd hlook (by simp)
    · rw [if_neg hse] at hlook
      simp only [Bool.and_eq_true, decide_eq_true_eq] at hlook
      obtain ⟨⟨⟨⟨⟨⟨⟨hlen1, hlen2⟩, hind⟩, hinv⟩, hcor⟩, hvc⟩, hnp⟩, hal⟩ := hlook
      simp only [hasValidCharacters, Bool.and_eq_true] at hvc
      refine ⟨s, rfl, ?_, ?_, hvc.2, pollutionLevel_spec hpoll⟩
      · rw [toLow_length_self] at hlen1; exact hlen1
      · rw [toLow_length_self] at hlen2; exact hlen2

/-- Witness for C6 at a concrete accepted record. -/
theorem classified_record_bounds_witness :
    isValidCity ⟨.vStr "Warsaw".data, .vNum (.fin 50)⟩ (some "PL") = true ∧
      (∃ s, (PollutionEntry.mk (.vStr "Warsaw".data) (.vNum (.fin 50))).name = .vStr s ∧
        2 ≤ (jsTrim s).length ∧ (jsTrim s).length ≤ 50 ∧
        ((jsTrim s).all fun c => allowedCode c.toNat) = true ∧
        ∃ q : ℚ, jsParseFloat (PollutionEntry.mk (.vStr "Warsaw".data)
          (.vNum (.fin 50))).pollution = .fin q ∧ 0 ≤ q ∧ q ≤ 200) :=
  ⟨by decide, classified_record_bounds ⟨.vStr "Warsaw".data, .vNum (.fin 50)⟩
    (some "PL") (by decide)⟩

theorem ciPref_length : ∀ {t u : List Nat}, ciPref t u = true →
    t.length ≤ u.length
  | [], _, _ => Nat.zero_le _
  | _ :: _, [], h => by simp [ciPref] at h
  | p :: ps, s :: ss, h => by
    simp only [ciPref, Bool.and_eq_true] at h
    simpa [List.length_cons] using Nat.succ_le_succ (ciPref_length h.2)

theorem ciPref_getD : ∀ {t u : List Nat}, ciPref t u = true →
    ∀ j, j < t.length → lowCode (u.getD j 0) = lowCode (t.getD j 0)
  | [], _, _, j, hj => by simp at hj
  | _ :: _, [], h, _, _ => by simp [ciPref] at h
  | p :: ps, s :: ss, h, j, hj => by
    simp only [ciPref, Bool.and_eq_true, beq_iff_eq] at h
    cases j with
    | zero => simpa using h.1.symm
    | succ j =>
      simp only [List.getD_cons_succ]
      exact ciPref_getD h.2 j (by simpa using hj)

theorem drop_getD : ∀ (i : Nat) (l : List Nat) (j : Nat),
    (l.drop i).getD j 0 = l.getD (i + j) 0
  | 0, _, _ => by simp
  | i + 1, [], j => by simp
  | i + 1, a :: l, j => by
    simp only [List.drop_succ_cons]
    rw [drop_getD i l j]
    have harith : i + 1 + j = (i + j) + 1 := by omega
    rw [harith, List.getD_cons_succ]

theorem wordCode_fiber {m n : Nat} (h : lowCode m = lowCode n) :
    wordCode m = wordCode n := by
  rw [← word_lowCode m, h, word_lowCode n]

theorem prevWordAt_succ (subj : List Nat) (k : Nat) :
    prevWordAt subj (k + 1) = wordAt subj k := rfl

theorem nonCityIndicators_edges :
    ∀ t ∈ nonCityIndicators, 0 < t.length ∧
      wordCode (t.getD 0 0) = true ∧
      wordCode (t.getD (t.length - 1) 0) = true := by decide

/-- C9: an indicator term from the fixed non-city vocabulary causes
rejection only when it occurs as a standalone word — delimited by the
string's ends or non-word characters — never as a mere substring of a
longer word; and the record "Eastwood" with a valid pollution value is
accepted by the classifier despite containing "east". -/
theorem indicator_rejection_requires_standalone_word :
    (∀ ln : List Nat, hasIndicator ln = true →
      ∃ t ∈ nonCityIndicators, ∃ i,
        ciPref t (ln.drop i) = true ∧ prevWordAt ln i = false ∧
          wordAt ln (i + t.length) = false) ∧
    isValidCity ⟨.vStr "Eastwood".data, .vNum (.fin 50)⟩ (some "DE") = true := by
  constructor
  · intro ln h
    simp only [hasIndicator, List.any_eq_true] at h
    obtain ⟨t, ht, htest⟩ := h
    simp only [testWordTerm, List.any_eq_true, List.mem_range,
      Bool.and_eq_true] at htest
    obtain ⟨i, hi, ⟨hm, hb1⟩, hb2⟩ := htest
    obtain ⟨hpos, hfirst, hlast⟩ := nonCityIndicators_edges t ht
    have hlenle : t.length ≤ ln.length - i := by
      have h1 := ciPref_length hm
      rwa [List.length_drop] at h1
    have hword : ∀ j, j < t.length →
        wordAt ln (i + j) = wordCode (t.getD j 0) := by
      intro j hj
      have hlt : i + j < ln.length := by omega
      have hg := ciPref_getD hm j hj
      rw [drop_getD i ln j] at hg
      have hd : decide (i + j < ln.length) = true := by simpa using hlt
      simp only [wordAt, hd, Bool.true_and]
      exact wordCode_fiber hg
    have hw0 : wordAt ln i = true := by
      have h0 := hword 0 hpos
      rw [hfirst] at h0
      simpa using h0
    have hwlast : wordAt ln (i + (t.length - 1)) = true := by
      have hl := hword (t.length - 1) (by omega)
      rw [hlast] at hl
      exact hl
    have hprev : prevWordAt ln i = false := by
      cases hpw : prevWordAt ln i with
      | false => rfl
      | true =>
        rw [boundaryAt, hpw, hw0] at hb1
        simp at hb1
    have hafter : wordAt ln (i + t.length) = false := by
      have hpw : prevWordAt ln (i + t.length) = true := by
        rw [show i + t.length = (i + (t.length - 1)) + 1 by omega,
          prevWordAt_succ]
        exact hwlast
      cases hwa : wordAt ln (i + t.length) with
      | false => rfl
      | true =>
        rw [boundaryAt, hpw, hwa] at hb2
        simp at hb2
    exact ⟨t, ht, i, hm, hprev, hafter⟩
  · decide

/-- Witness for C9: "unknown area" is rejected by the indicator check,
and the standalone occurrence exists. -/
theorem indicator_rejection_requires_standalone_word_witness :
    hasIndicator (lit "unknown area") = true ∧
      (∃ t ∈ nonCityIndicators, ∃ i,
        ciPref t ((lit "unknown area").drop i) = true ∧
          prevWordAt (lit "unknown area") i = false ∧
          wordAt (lit "unknown area") (i + t.length) = false) :=
  ⟨by decide, indicator_rejection_requires_standalone_word.1
    (lit "unknown area") (by decide)⟩

/-- Upstream login response: a token (with an optional refresh token),
or an error (HTTP failure / response without a token). -/
inductive LoginResp where
  | ok : Nat → Option Nat → LoginResp
  | err : LoginResp
deriving DecidableEq, Repr

/-- Upstream refresh response: a fresh token, or an error (HTTP
failure / response without a token). -/
inductive RefreshResp where
  | ok : Nat → RefreshResp
  | err : RefreshResp
deriving DecidableEq, Repr

/-- Upstream pollution-data response: a payload (abstracted as a
number), an HTTP error status, or a network-level failure with no
response. -/
inductive DataResp where
  | ok : Nat → DataResp
  | status : Nat → DataResp
  | netErr : DataResp
deriving DecidableEq, Repr

/-- The upstream world: the response each endpoint returns at its
n-th invocation (counted separately per endpoint). -/
structure World where
  login : Nat → LoginResp
  refresh : Nat → RefreshResp
  data : Nat → DataResp

/-- The mutable state of `PollutionApiService`: the token pair, plus
invocation counters for the three upstream endpoints. -/
structure ClientState where
  accessToken : Option Nat
  refreshToken : Option Nat
  loginCalls : Nat
  refreshCalls : Nat
  dataCalls : Nat
deriving DecidableEq, Repr

/-- The state of a freshly constructed service: both tokens null. -/
def initState : ClientState :=
  { accessToken := none, refreshToken := none, loginCalls := 0,
    refreshCalls := 0, dataCalls := 0 }

/-- `authenticate` from `pollutionApiService.ts`: return the cached
access token if present; else try the refresh token (clearing it on
failure), else log in (storing the access token and, when present,
the refresh token).  `none` as first component models the method
throwing its auth-failure error. -/
def authenticate (w : World) (st : ClientState) :
    Option Nat × ClientState :=
  match st.accessToken with
  | some tok => (some tok, st)
  | none =>
    let step1 : Option Nat × ClientState :=
      match st.refreshToken with
      | none => (none, st)
      | some _ =>
        let st1 := { st with refreshCalls := st.refreshCalls + 1 }
        match w.refresh st.refreshCalls with
        | .ok tok => (some tok, { st1 with accessToken := some tok })
        | .err => (none, { st1 with refreshToken := none })
    match step1 with
    | (some tok, st2) => (some tok, st2)
    | (none, st2) =>
      let st3 := { st2 with loginCalls := st2.loginCalls + 1 }
      match w.login st2.loginCalls with
      | .ok tok rtok =>
        let st4 := { st3 with accessToken := some tok }
        (some tok,
          match rtok with
          | some r => { st4 with refreshToken := some r }
          | none => st4)
      | .err => (none, st3)

/-- `refreshAccessToken` from `pollutionApiService.ts`: fails if no
refresh token is stored; on upstream failure the refresh token is
cleared and the error rethrown; on success the access token is
replaced. -/
def refreshAccessToken (w : World) (st : ClientState) :
    Option Nat × ClientState :=
  match st.refreshToken with
  | none => (none, st)
  | some _ =>
    let st1 := { st with refreshCalls := st.refreshCalls + 1 }
    match w.refresh st.refreshCalls with
    | .ok tok => (some tok, { st1 with accessToken := some tok })
    | .err => (none, { st1 with refreshToken := none })

/-- Client-visible outcome of `getPollutionData`, one constructor per
distinct thrown error of the source (plus `outOfFuel`, a modelling
artifact marking unfinished recursion). -/
inductive FetchResult where
  | success : Nat → FetchResult
  | authFailed : FetchResult
  | rateLimited : FetchResult
  | validationFailed : FetchResult
  | apiError : Nat → FetchResult
  | noResponse : FetchResult
  | setupError : FetchResult
  | outOfFuel : FetchResult
deriving DecidableEq, Repr

/-- `getPollutionData` from `pollutionApiService.ts`.  On a 401 it
clears the access token, calls `refreshAccessToken`, and — when the
refresh succeeded — recursively retries itself (the source has no
retry counter; `fuel` only bounds the model's recursion);
when the refresh failed it throws the auth error.  429, 400 and other
statuses map to their dedicated errors; an authentication failure
before the request surfaces as the setup error (the thrown `Error` has
neither `response` nor `request`). -/
def getPollutionData (w : World) (st : ClientState) :
    Nat → FetchResult × ClientState
  | 0 => (.outOfFuel, st)
  | fuel + 1 =>
    match authenticate w st with
    | (none, st1) => (.setupError, st1)
    | (some _, st1) =>
      let st2 := { st1 with dataCalls := st1.dataCalls + 1 }
      match w.data st1.dataCalls with
      | .ok payload => (.success payload, st2)
      | .netErr => (.noResponse, st2)
      | .status code =>
        if code = 401 then
          let st3 := { st2 with accessToken := none }
          match refreshAccessToken w st3 with
          | (some _, st4) => getPollutionData w st4 fuel
          | (none, st4) => (.authFailed, st4)
        else if code = 429 then (.rateLimited, st2)
        else if code = 400 then (.validationFailed, st2)
        else (.apiError code, st2)

/-- `CitiesService.getPollutedCities`'s fetch step together with its
catch-all: any error from the client (filtering and enrichment are
total) is replaced by the single generic failure message. -/
def citiesServiceFetch (w : World) (st : ClientState) (fuel : Nat) :
    Except String (Nat × ClientState) :=
  match getPollutionData w st fuel with
  | (.success payload, st1) => .ok (payload, st1)
  | (_, _) => .error "Failed to fetch polluted cities data"

/-- Structured HTTP error as the controller serialises it. -/
structure HttpErrorResp where
  error : String
  code : String
  status : Nat
deriving DecidableEq, Repr

/-- The controller's catch block for errors thrown by the service
layer: the service throws plain `Error`s (never `CustomApiError`), so
they all map to the generic internal-error response. -/
def controllerGetCities (w : World) (st : ClientState) (fuel : Nat) :
    Except HttpErrorResp (Nat × ClientState) :=
  match citiesServiceFetch w st fuel with
  | .ok x => .ok x
  | .error _ =>
    .error { error := "Internal server error", code := "INTERNAL_ERROR",
             status := 500 }

/-- World for C1: login succeeds and returns a refresh token, the data
endpoint returns 401, then 401, then a 200 payload, and every refresh
call succeeds. -/
def worldRetryLoop : World :=
  { login := fun _ => .ok 100 (some 7),
    refresh := fun k => .ok (101 + k),
    data := fun k => if k = 0 then .status 401
      else if k = 1 then .status 401 else .ok 77 }

/-- C1 (code bug): with upstream data responses 401, 401, 200 and a
refresh endpoint that keeps succeeding, the client issues THREE data
requests and the caller receives the 200 payload — the source retries
once per successful refresh with no counter, so the upstream data
request is not bounded by two and the 401,401 run does not end in the
auth error. -/
theorem retry_unbounded_on_successful_refresh :
    (getPollutionData worldRetryLoop initState 10).1 = .success 77 ∧
      (getPollutionData worldRetryLoop initState 10).2.dataCalls = 3 ∧
      (getPollutionData worldRetryLoop initState 10).2.refreshCalls = 2 := by
  refine ⟨?_, ?_, ?_⟩ <;> rfl

/-- C2 (amended): when a data request gets a 401 and the subsequent
refresh call fails, the access and refresh tokens are cleared and the
call fails with the auth error immediately — no fresh login is issued
and the original request is not retried within this call. -/
theorem refresh_failure_fails_without_login_retry
    (w : World) (st : ClientState) (fuel : Nat) (tok r : Nat)
    (hacc : st.accessToken = some tok)
    (href : st.refreshToken = some r)
    (hdata : w.data st.dataCalls = .status 401)
    (hrefresh : w.refresh st.refreshCalls = .err) :
    getPollutionData w st (fuel + 1) =
      (.authFailed,
        { accessToken := none, refreshToken := none,
          loginCalls := st.loginCalls, refreshCalls := st.refreshCalls + 1,
          dataCalls := st.dataCalls + 1 }) := by
  simp only [getPollutionData, authenticate, hacc, hdata,
    refreshAccessToken, href, hrefresh, if_true]

/-- World for the C2 counterexample: login succeeds (with a refresh
token), the first data request gets 401, the refresh endpoint fails,
and both a second login and a second data request would succeed. -/
def worldRefreshFails : World :=
  { login := fun _ => .ok 100 (some 7),
    refresh := fun _ => .err,
    data := fun k => if k = 0 then .status 401 else .ok 55 }

/-- Counterexample to C2 as stated: after the 401 and the failed
refresh, the claim promises a fresh login and one retry (which would
succeed here, the second data response being a 200 payload); the code
instead fails with the auth error after a single login and a single
data request. -/
theorem refresh_failure_no_login_retry_cex :
    (getPollutionData worldRefreshFails initState 10).1 = .authFailed ∧
      (getPollutionData worldRefreshFails initState 10).2.loginCalls = 1 ∧
      (getPollutionData worldRefreshFails initState 10).2.dataCalls = 1 ∧
      worldRefreshFails.data 1 = .ok 55 := by
  refine ⟨?_, ?_, ?_, ?_⟩ <;> rfl

/-- Witness for C2's amended theorem at a concrete state and world. -/
theorem refresh_failure_fails_without_login_retry_witness :
    getPollutionData worldRefreshFails
        { accessToken := some 100, refreshToken := some 7,
          loginCalls := 1, refreshCalls := 0, dataCalls := 0 } 10 =
      (.authFailed,
        { accessToken := none, refreshToken := none, loginCalls := 1,
          refreshCalls := 1, dataCalls := 1 }) :=
  refresh_failure_fails_without_login_retry worldRefreshFails
    { accessToken := some 100, refreshToken := some 7, loginCalls := 1,
      refreshCalls := 0, dataCalls := 0 } 9 100 7 rfl rfl rfl rfl

/-- C3 (amended): a 429 from the data endpoint makes the client call
fail with the rate-limit error without any retry (one data request, no
further login or refresh), but the service layer's catch-all replaces
it with its generic failure, so the HTTP boundary reports the generic
internal error with code INTERNAL_ERROR and status 500 — the
rate-limit condition never reaches the boundary as a structured code. -/
theorem rate_limit_no_retry_generic_boundary
    (w : World) (st : ClientState) (fuel : Nat) (tok : Nat)
    (hacc : st.accessToken = some tok)
    (hdata : w.data st.dataCalls = .status 429) :
    getPollutionData w st (fuel + 1) =
      (.rateLimited, { st with dataCalls := st.dataCalls + 1 }) ∧
    controllerGetCities w st (fuel + 1) =
      .error { error := "Internal server error", code := "INTERNAL_ERROR",
               status := 500 } := by
  have h1 : getPollutionData w st (fuel + 1) =
      (.rateLimited, { st with dataCalls := st.dataCalls + 1 }) := by
    simp only [getPollutionData, authenticate, hacc, hdata]
    norm_num
  refine ⟨h1, ?_⟩
  simp only [controllerGetCities, citiesServiceFetch, h1]

/-- World for the C3 counterexample: login succeeds, the first data
request is answered with 429. -/
def worldRateLimited : World :=
  { login := fun _ => .ok 100 (some 7),
    refresh := fun _ => .err,
    data := fun _ => .status 429 }

/-- Counterexample to C3 as stated: on a 429 run the HTTP boundary
receives `{error: "Internal server error", code: "INTERNAL_ERROR"}`
with status 500 — a generic internal error, not a structured
rate-limit code (the client-level result is the rate-limit error,
reached after exactly one data request, confirming the no-retry part). -/
theorem rate_limit_collapsed_to_internal_error_cex :
    (getPollutionData worldRateLimited initState 10).1 = .rateLimited ∧
      (getPollutionData worldRateLimited initState 10).2.dataCalls = 1 ∧
      controllerGetCities worldRateLimited initState 10 =
        .error { error := "Internal server error", code := "INTERNAL_ERROR",
                 status := 500 } := by
  refine ⟨?_, ?_, ?_⟩ <;> rfl

/-- Witness for C3's amended theorem at a concrete state and world. -/
theorem rate_limit_no_retry_generic_boundary_witness :
    getPollutionData worldRateLimited
        { accessToken := some 100, refreshToken := some 7, loginCalls := 1,
          refreshCalls := 0, dataCalls := 0 } 10 =
      (.rateLimited,
        { accessToken := some 100, refreshToken := some 7, loginCalls := 1,
          refreshCalls := 0, dataCalls := 1 }) ∧
    controllerGetCities worldRateLimited
        { accessToken := some 100, refreshToken := some 7, loginCalls := 1,
          refreshCalls := 0, dataCalls := 0 } 10 =
      .error { error := "Internal server error", code := "INTERNAL_ERROR",
               status := 500 } :=
  rate_limit_no_retry_generic_boundary worldRateLimited
    { accessToken := some 100, refreshToken := some 7, loginCalls := 1,
      refreshCalls := 0, dataCalls := 0 } 9 100 rfl rfl

/-- A normalized city as the enrichment step receives it. -/
structure City where
  name : List Char
  country : List Char
  pollution : ℚ
deriving DecidableEq, Repr

/-- A city after enrichment, carrying its description. -/
structure EnrichedCity where
  name : List Char
  country : List Char
  pollution : ℚ
  description : List Char
deriving DecidableEq, Repr

/-- The base record of an enriched city (spread of `...city` in the
source). -/
def baseCity (e : EnrichedCity) : City :=
  { name := e.name, country := e.country, pollution := e.pollution }

/-- The value of the `description` variable in the enrichment loop:
`undefined` (cache miss), `null` (cached not-found) or a string. -/
inductive DescVal where
  | undef : DescVal
  | nullv : DescVal
  | strv : List Char → DescVal
deriving DecidableEq, Repr

/-- Cache key `wikipedia_${city.name}_${city.country}`. -/
def wikiKey (c : City) : List Char :=
  "wikipedia_".data ++ c.name ++ "_".data ++ c.country

/-- The wiki cache: stored values are `string | null` lookup results;
`get` of an absent key is `undefined`. -/
def wikiCacheGet (cache : List (List Char × Option (List Char)))
    (key : List Char) : DescVal :=
  match cache.find? fun e => e.1 == key with
  | none => .undef
  | some (_, none) => .nullv
  | some (_, some s) => .strv s

/-- `cache.set` for the wiki cache (expiry is irrelevant to the
enrichment claims: no expiry event occurs between the operations they
compare). -/
def wikiCacheSet (cache : List (List Char × Option (List Char)))
    (key : List Char) (v : Option (List Char)) :
    List (List Char × Option (List Char)) :=
  (key, v) :: cache.filter fun e => !(e.1 == key)

/-- State threaded through the enrichment loop: the shared cache and
the number of Wikipedia lookups performed so far. -/
structure EnrichState where
  cache : List (List Char × Option (List Char))
  calls : Nat
deriving DecidableEq, Repr

/-- One iteration of `enrichCitiesWithDescriptions`'s loop: consult
the cache; if the cached value is falsy (absent, null, or empty) call
`wikipediaService.getCityDescription` (the oracle, indexed by call
count; `none` is its null result — the method catches its own errors
and returns null, so it never throws) and cache the result; the pushed
description falls back to the sentinel when the looked-up value is
falsy. -/
def enrichOne (oracle : Nat → Option (List Char)) (st : EnrichState)
    (c : City) : EnrichedCity × EnrichState :=
  let key := wikiKey c
  let fetch : EnrichedCity × EnrichState :=
    let r := oracle st.calls
    let st2 : EnrichState :=
      { cache := wikiCacheSet st.cache key r, calls := st.calls + 1 }
    let desc : List Char :=
      match r with
      | some s => if s.isEmpty then "No description available".data else s
      | none => "No description available".data
    ({ name := c.name, country := c.country, pollution := c.pollution,
       description := desc }, st2)
  match wikiCacheGet st.cache key with
  | .strv s =>
    if s.isEmpty then fetch
    else ({ name := c.name, country := c.country, pollution := c.pollution,
            description := s }, st)
  | _ => fetch

/-- `enrichCitiesWithDescriptions`: the sequential loop over the
batch, threading the cache state. -/
def enrichCities (oracle : Nat → Option (List Char)) (st : EnrichState) :
    List City → List EnrichedCity × EnrichState
  | [] => ([], st)
  | c :: rest =>
    let (e, st1) := enrichOne oracle st c
    let (es, st2) := enrichCities oracle st1 rest
    (e :: es, st2)

/-- C7: enrichment returns one output per input in the same order
(same name, country and pollution), and every output's description is
non-empty — whatever the summary oracle does, including failing or
returning nothing for every city in the batch. -/
theorem enrichment_preserves_batch_and_descriptions
    (oracle : Nat → Option (List Char)) (st : EnrichState)
    (cities : List City) :
    (enrichCities oracle st cities).1.map baseCity = cities ∧
      (enrichCities oracle st cities).1.all
        (fun e => !e.description.isEmpty) = true := by
  induction cities generalizing st with
  | nil => exact ⟨rfl, rfl⟩
  | cons c rest ih =>
    simp only [enrichCities]
    obtain ⟨ih1, ih2⟩ := ih ((enrichOne oracle st c).2)
    refine ⟨?_, ?_⟩
    · simp only [List.map_cons, ih1, List.cons.injEq, and_true]
      simp only [enrichOne]
      cases wikiCacheGet st.cache (wikiKey c) with
      | strv s =>
        by_cases hs : s.isEmpty = true
        · simp only [hs, if_true]
          cases oracle st.calls with
          | none => rfl
          | some d => rfl
        · simp only [hs]
          simp [baseCity]
      | undef =>
        cases oracle st.calls with
        | none => rfl
        | some d => rfl
      | nullv =>
        cases oracle st.calls with
        | none => rfl
        | some d => rfl
    · simp only [List.all_cons, Bool.and_eq_true]
      refine ⟨?_, ih2⟩
      simp only [enrichOne]
      cases wikiCacheGet st.cache (wikiKey c) with
      | strv s =>
        by_cases hs : s.isEmpty = true
        · simp only [hs, if_true]
          cases ho : oracle st.calls with
          | none => rfl
          | some d =>
            by_cases hd : d.isEmpty = true
            · simp [hd]
            · simp [hd]
        · simp [hs]
      | undef =>
        cases ho : oracle st.calls with
        | none => rfl
        | some d =>
          by_cases hd : d.isEmpty = true
          · simp [hd]
          · simp [hd]
      | nullv =>
        cases ho : oracle st.calls with
        | none => rfl
        | some d =>
          by_cases hd : d.isEmpty = true
          · simp [hd]
          · simp [hd]

/-- A concrete normalized city for counterexamples. -/
def lodz : City :=
  { name := "Lodz".data, country := "Poland".data, pollution := 50 }

/-- Summary oracle whose every lookup returns the not-found (null)
result. -/
def nullOracle : Nat → Option (List Char) := fun _ => none

/-- Counterexample to C5 as stated: enriching `[lodz]` once with a
not-found lookup stores `null` in the cache under the city's key; a
second enrichment of the same city finds the cached `null`, treats it
as a miss (the code tests `!description`), and performs a second
network lookup instead of none. -/
theorem cached_null_refetches_cex :
    (enrichCities nullOracle ⟨[], 0⟩ [lodz]).2.calls = 1 ∧
    wikiCacheGet (enrichCities nullOracle ⟨[], 0⟩ [lodz]).2.cache
        (wikiKey lodz) = .nullv ∧
    (enrichCities nullOracle
        (enrichCities nullOracle ⟨[], 0⟩ [lodz]).2 [lodz]).2.calls = 2 := by
  refine ⟨rfl, ?_, rfl⟩
  rfl

/-- C5 (amended): when the cache holds a non-null, non-empty
description for the city's `(name, country)` key, enrichment takes it
from the cache and performs no summary lookup at all (the state — call
counter included — is unchanged); a cached null result, by contrast, is
treated as a miss and the lookup runs again. -/
theorem cache_hit_truthy_bypasses_network
    (oracle : Nat → Option (List Char)) (st : EnrichState) (c : City)
    (d : List Char) (hhit : wikiCacheGet st.cache (wikiKey c) = .strv d)
    (hne : d.isEmpty = false) :
    enrichOne oracle st c =
      ({ name := c.name, country := c.country, pollution := c.pollution,
         description := d }, st) := by
  simp only [enrichOne, hhit, hne, Bool.false_eq_true, if_false]

/-- Witness for C5's amended theorem: a cache that already stores a
non-empty description for the key; no oracle call happens. -/
theorem cache_hit_truthy_bypasses_network_witness :
    enrichOne nullOracle
        { cache := [(wikiKey lodz, some "Lodz is a city".data)],
          calls := 5 } lodz =
      ({ name := lodz.name, country := lodz.country,
         pollution := lodz.pollution,
         description := "Lodz is a city".data },
       { cache := [(wikiKey lodz, some "Lodz is a city".data)],
         calls := 5 }) :=
  cache_hit_truthy_bypasses_network nullOracle
    { cache := [(wikiKey lodz, some "Lodz is a city".data)], calls := 5 }
    lodz "Lodz is a city".data (by decide) (by decide)

/-- The generic TTL cache (`Cache<T>` from `utils/cache.ts`): each
entry is a key, its value, and the absolute time at which its pending
expiry action fires (`none` when no timer is scheduled).  `set`
replaces the entry wholesale, which models `clearTimeout` of the old
timer plus scheduling of the new one. -/
structure TimedCache (V : Type) where
  entries : List (String × V × Option ℚ)
deriving Repr

/-- The freshly constructed cache. -/
def emptyTimedCache (V : Type) : TimedCache V := ⟨[]⟩

/-- `Cache.set(key, value, ttl?)` at absolute time `now`: cancels any
pending expiry for the key, stores the value, and schedules one expiry
at `now + ttl` when `ttl` is given and positive. -/
def cacheSet {V : Type} (s : TimedCache V) (now : ℚ) (k : String)
    (v : V) (ttl : Option ℚ) : TimedCache V :=
  { entries :=
      (k, v,
        match ttl with
        | some t => if 0 < t then some (now + t) else none
        | none => none) :: s.entries.filter fun e => !(e.1 == k) }

/-- The timer callbacks due by time `now` have fired (each deletes its
key); an entry survives iff it has no timer or its timer is still in
the future. -/
def fireTimers {V : Type} (s : TimedCache V) (now : ℚ) : TimedCache V :=
  { entries := s.entries.filter fun e =>
      match e.2.2 with
      | some exp => decide (now < exp)
      | none => true }

/-- `Cache.get(key)` observed at absolute time `now`, after all due
timers have fired.  Returns `none` for an absent key (`undefined`). -/
def cacheGetAt {V : Type} (s : TimedCache V) (now : ℚ) (k : String) :
    Option V :=
  ((fireTimers s now).entries.find? fun e => e.1 == k).map fun e => e.2.1

theorem find_after_removal_none {V : Type} (k : String)
    (p : String × V × Option ℚ → Bool) :
    ∀ l : List (String × V × Option ℚ),
      ((l.filter fun e => !(e.1 == k)).filter p).find?
        (fun e => e.1 == k) = none := by
  intro l
  induction l with
  | nil => rfl
  | cons a rest ih =>
    by_cases ha : (a.1 == k) = true
    · simp only [List.filter_cons, ha, Bool.not_true, Bool.false_eq_true,
        if_false]
      exact ih
    · have ha2 : (a.1 == k) = false := by simpa using ha
      simp only [List.filter_cons, ha2, Bool.not_false, if_true]
      by_cases hp : p a = true
      · simp only [List.filter_cons, hp, if_true, List.find?_cons, ha2]
        exact ih
      · have hp2 : p a = false := by simpa using hp
        simp only [List.filter_cons, hp2, Bool.false_eq_true, if_false]
        exact ih

/-- C8: after `set(k, v, ttl)` with `ttl > 0`, `get(k)` returns `v` at
every time before `ttl` has elapsed and reports the key absent once
`ttl` has elapsed (with no intervening operation on `k`); and a second
`set` of the same key before expiry cancels the earlier pending
expiry, so the newly set value is still there at any time before its
own ttl — even past the first ttl's deadline. -/
theorem cache_ttl_roundtrip {V : Type} (s : TimedCache V) (now : ℚ)
    (k : String) (v : V) (ttl : ℚ) (h : 0 < ttl) :
    (∀ t : ℚ, now ≤ t → t < now + ttl →
      cacheGetAt (cacheSet s now k v (some ttl)) t k = some v) ∧
    (∀ t : ℚ, now + ttl ≤ t →
      cacheGetAt (cacheSet s now k v (some ttl)) t k = none) ∧
    (∀ (now2 ttl2 t2 : ℚ) (v2 : V), now ≤ now2 → now2 < now + ttl →
      0 < ttl2 → now2 ≤ t2 → t2 < now2 + ttl2 →
      cacheGetAt (cacheSet (cacheSet s now k v (some ttl)) now2 k v2
        (some ttl2)) t2 k = some v2) := by
  refine ⟨?_, ?_, ?_⟩
  · intro t _ ht2
    have hd : decide (t < now + ttl) = true := by simpa using ht2
    simp only [cacheGetAt, fireTimers, cacheSet, if_pos h,
      List.filter_cons, hd, if_true, List.find?_cons, beq_self_eq_true]
    rfl
  · intro t ht
    have hd : decide (t < now + ttl) = false := by
      simp only [decide_eq_false_iff_not, not_lt]
      exact ht
    simp only [cacheGetAt, fireTimers, cacheSet, if_pos h,
      List.filter_cons, hd, Bool.false_eq_true, if_false]
    rw [find_after_removal_none]
    rfl
  · intro now2 ttl2 t2 v2 _ _ h2 _ ht2
    have hd : decide (t2 < now2 + ttl2) = true := by simpa using ht2
    simp only [cacheGetAt, fireTimers, cacheSet, if_pos h2,
      List.filter_cons, hd, if_true, List.find?_cons, beq_self_eq_true]
    rfl

/-- Witness for C8 with concrete times: value visible at 5, gone at
10, and after a re-set at 5 with ttl 10 still visible at 12. -/
theorem cache_ttl_roundtrip_witness :
    cacheGetAt (cacheSet (emptyTimedCache Nat) 0 "k" 1 (some 10)) 5 "k" =
        some 1 ∧
    cacheGetAt (cacheSet (emptyTimedCache Nat) 0 "k" 1 (some 10)) 10 "k" =
        none ∧
    cacheGetAt (cacheSet (cacheSet (emptyTimedCache Nat) 0 "k" 1
        (some 10)) 5 "k" 2 (some 10)) 12 "k" = some 2 := by
  obtain ⟨h1, h2, h3⟩ :=
    cache_ttl_roundtrip (emptyTimedCache Nat) 0 "k" 1 10 (by norm_num)
  exact ⟨h1 5 (by norm_num) (by norm_num), h2 10 (by norm_num),
    h3 5 10 12 2 (by norm_num) (by norm_num) (by norm_num) (by norm_num)
      (by norm_num)⟩
